import Mathlib

/-!
Verification of the GauchoGPT housing/course ETL pipeline.

This file gives a shallow embedding, in Lean 4, of the data-wrangling core of
the repository: the housing transform (`ETLPipeline.transform_housing_data` in
`etl_pipeline.py`), the CSV extraction wrappers, the CSV loader
(`_load_housing_df` in `housingpropertys.py`), and the database operations of
`db_manager.py` (the connection scope, the course upsert, the insert-only
offering load, and the bulk housing append).

Conventions of the embedding:
 - a DataFrame cell is an `Option String` (`none` models a missing value /
   pandas NaN); a numeric cell after coercion is an `Option Rat`
   (`none` models NaN, `some q` a finite value);
 - pandas column operations are elementwise on these rows, so they are
   modelled row by row; `drop_duplicates` is modelled on the list of rows;
 - Python exceptions are modelled with `Except`; the fallible filesystem read
   of `pd.read_csv` is modelled as an input to the extraction functions.
-/

namespace GauchoGPT

/-! ## Numeric string parsing

Model of `float()` / `pd.to_numeric(..., errors="coerce")` on a string cell:
optional surrounding whitespace, optional sign, decimal digits with an
optional fractional part and an optional exponent part.  The non-finite
spellings (`nan`, `inf`, ...) are not representable in `Rat` and are mapped to
`none`, matching how a NaN cell is modelled as `none` throughout. -/

/-- Value of a list of decimal digit characters, most significant first. -/
def digitsVal (ds : List Char) : Nat :=
  ds.foldl (fun a c => 10 * a + (c.toNat - 48)) 0

/-- Strip a leading sign; returns `(isNegative, rest)`. -/
def splitSign : List Char → Bool × List Char
  | '-' :: rest => (true, rest)
  | '+' :: rest => (false, rest)
  | l => (false, l)

/-- Powers of ten, written with structural recursion so that every use
reduces inside the kernel. -/
def pow10 : Nat → Nat
  | 0 => 1
  | k + 1 => 10 * pow10 k

/-- The rational value of a parsed literal with sign `neg`, integer-part
value `ip`, fraction-part value `fp` over `fpLen` digits, and exponent `e`:
the value of `sign * (ip.fp) * 10^e`, built with `Rat.divInt` so that it
evaluates by reduction. -/
def partsToRat (neg : Bool) (ip fp fpLen : Nat) (e : Int) : ℚ :=
  let mag : Int := (ip * pow10 fpLen + fp : Nat)
  let n : Int := if neg then -mag else mag
  if 0 ≤ e then Rat.divInt (n * (pow10 e.toNat : Nat)) ((pow10 fpLen : Nat))
  else Rat.divInt n ((pow10 (fpLen + e.natAbs) : Nat))

/-- Parse the exponent suffix (the characters after the letter e): optional
sign, then digits; `none` when the digits are absent or trailed by junk. -/
def parseExp (l : List Char) : Option Int :=
  let p := splitSign l
  let ed := p.2.takeWhile Char.isDigit
  let rest := p.2.dropWhile Char.isDigit
  if ed.isEmpty || !rest.isEmpty then none
  else some (if p.1 then -(digitsVal ed : Int) else (digitsVal ed : Int))

/-- Parse a decimal floating-point literal from a character list. -/
def parseFloatChars (l0 : List Char) : Option ℚ :=
  let p := splitSign l0
  let ip := p.2.takeWhile Char.isDigit
  let l1 := p.2.dropWhile Char.isDigit
  let fq : List Char × List Char :=
    match l1 with
    | '.' :: rest => (rest.takeWhile Char.isDigit, rest.dropWhile Char.isDigit)
    | _ => ([], l1)
  if ip.isEmpty && fq.1.isEmpty then none
  else
    let eo : Option Int :=
      match fq.2 with
      | [] => some 0
      | 'e' :: rest => parseExp rest
      | 'E' :: rest => parseExp rest
      | _ => none
    eo.map (fun e => partsToRat p.1 (digitsVal ip) (digitsVal fq.1) fq.1.length e)

/-- ASCII whitespace test used when trimming numeric strings. -/
def isSpaceB (c : Char) : Bool :=
  c == ' ' || c == '\t' || c == '\n' || c == '\r'

/-- Trim surrounding ASCII whitespace from a character list. -/
def trimChars (l : List Char) : List Char :=
  ((l.dropWhile isSpaceB).reverse.dropWhile isSpaceB).reverse

/-- Model of parsing a string as a finite float (`pd.to_numeric` with
`errors="coerce"` on one cell): `none` is the coerced NaN. -/
def parseFloat (s : String) : Option ℚ :=
  parseFloatChars (trimChars s.data)

/-! ## String helpers (lowercase, trim, substring) -/

/-- Lowercase every character (model of `str.lower()`). -/
def lowerChars (l : List Char) : List Char := l.map Char.toLower

/-- Lowercase a string. -/
def lowerStr (s : String) : String := ⟨lowerChars s.data⟩

/-- Trim a string (model of `str.strip()`). -/
def trimStr (s : String) : String := ⟨trimChars s.data⟩

/-- Does the first list occur as a leading segment of the second? -/
def leadsWith : List Char → List Char → Bool
  | [], _ => true
  | _ :: _, [] => false
  | a :: as, b :: bs => a == b && leadsWith as bs

/-- Does the needle occur contiguously anywhere in the haystack? -/
def containsSub (needle : List Char) : List Char → Bool
  | [] => needle.isEmpty
  | b :: bs => leadsWith needle (b :: bs) || containsSub needle bs

/-- Model of the Python substring test `needle in hay`. -/
def strContains (hay needle : String) : Bool :=
  containsSub needle.data hay.data

/-! ## Housing rows and the transform (`ETLPipeline.transform_housing_data`) -/

/-- A raw housing CSV row after the required-columns step of
`transform_housing_data` (lines 72-88): every column of interest exists, and
each cell is either missing (`none`) or a string. -/
structure RawRow where
  street : Option String
  unit : Option String
  price : Option String
  bedrooms : Option String
  bathrooms : Option String
  max_residents : Option String
  status : Option String
  pet_policy : Option String
deriving DecidableEq

/-- A transformed housing row (output of `transform_housing_data`). -/
structure TransformedRow where
  street : Option String
  unit : Option String
  price : Option ℚ
  bedrooms : Option ℚ
  bathrooms : Option ℚ
  max_residents : Option ℚ
  status : String
  pet_friendly : Bool
  is_studio : Bool
  price_per_person : Option ℚ
deriving DecidableEq

/-- Price cleaning (lines 90-93): `astype(str)` renders a NaN cell as the
string "nan", then the characters `$` and `,` are removed, then the result is
parsed with `to_numeric(errors="coerce")`. -/
def stripCurrency (s : String) : String :=
  ⟨s.data.filter (fun c => !(c == '$') && !(c == ','))⟩

/-- Full price cell cleaning of lines 90-93. -/
def cleanPrice (raw : Option String) : Option ℚ :=
  parseFloat (stripCurrency (match raw with | none => "nan" | some s => s))

/-- Numeric coercion of bedrooms/bathrooms/max_residents (lines 96-98):
`pd.to_numeric(col, errors="coerce")` on each cell. -/
def toNumericCell (raw : Option String) : Option ℚ :=
  match raw with
  | none => none
  | some s => parseFloat s

/-- The studio test on the unit text (line 103):
`unit.str.lower().str.contains("studio", na=False)`. -/
def unitStudio (u : Option String) : Bool :=
  match u with
  | none => false
  | some s => strContains (lowerStr s) "studio"

/-- The studio flag (lines 100-103):
`bedrooms.fillna(0).eq(0) | unit.str.lower().str.contains("studio", na=False)`. -/
def isStudioOf (bedrooms : Option ℚ) (u : Option String) : Bool :=
  decide (bedrooms.getD 0 = 0) || unitStudio u

/-- Status cleaning (lines 105-108): `fillna("available").str.lower()`.
Note the source applies no `strip()` here. -/
def cleanStatus (raw : Option String) : String :=
  lowerStr (raw.getD "available")

/-- Pet-friendliness inference (lines 110-114), in the branch where the raw
data has a `pet_policy` column and no `pet_friendly` column:
`pet_policy.str.lower().str.contains("friendly|allowed", na=False)`. -/
def petFriendlyOf (p : Option String) : Bool :=
  match p with
  | none => false
  | some s => strContains (lowerStr s) "friendly" || strContains (lowerStr s) "allowed"

/-- Rational division written with `Rat.divInt` so that it evaluates by
reduction; `ratDiv_eq_div` proves it equal to the field division of `ℚ`. -/
def ratDiv (p m : ℚ) : ℚ :=
  Rat.divInt (p.num * (m.den : Int)) ((p.den : Int) * m.num)

/-- Price per person (lines 116-118): the elementwise division
`price / max_residents` (NaN-propagating; division by zero gives a non-finite
value) followed by the overwrite that sets the result to NaN wherever
`max_residents` is NaN or equal to 0.  The composite of the two lines is
modelled in one function; the non-finite intermediate of the zero divisor is
unobservable because line 118 overwrites exactly those entries. -/
def pricePerPersonOf (price maxRes : Option ℚ) : Option ℚ :=
  match maxRes with
  | none => none
  | some m =>
    if m = 0 then none
    else match price with
      | none => none
      | some p => some (ratDiv p m)

/-- The elementwise part of `transform_housing_data` applied to one row
(lines 90-118 of `etl_pipeline.py`). -/
def transformRow (r : RawRow) : TransformedRow :=
  { street := r.street
    unit := r.unit
    price := cleanPrice r.price
    bedrooms := toNumericCell r.bedrooms
    bathrooms := toNumericCell r.bathrooms
    max_residents := toNumericCell r.max_residents
    status := cleanStatus r.status
    pet_friendly := petFriendlyOf r.pet_policy
    is_studio := isStudioOf (toNumericCell r.bedrooms) r.unit
    price_per_person := pricePerPersonOf (cleanPrice r.price) (toNumericCell r.max_residents) }

/-- The deduplication key of line 122: the `(street, unit)` pair. -/
def housingKey (r : TransformedRow) : Option String × Option String :=
  (r.street, r.unit)

/-- Model of `DataFrame.drop_duplicates(subset, keep="last")`: a row is kept
iff no later row has the same key; kept rows stay in their original order. -/
def dropDupLast {α κ : Type _} [DecidableEq κ] (key : α → κ) : List α → List α
  | [] => []
  | x :: xs =>
    if xs.any (fun y => decide (key y = key x)) then dropDupLast key xs
    else x :: dropDupLast key xs

/-- `ETLPipeline.transform_housing_data` (lines 59-130): an empty frame is
returned unchanged; otherwise each row is cleaned elementwise and the batch is
deduplicated by `(street, unit)` keeping the last occurrence. -/
def transform_housing_data (df : List RawRow) : List TransformedRow :=
  if df.isEmpty then []
  else dropDupLast housingKey (df.map transformRow)

/-! ## The CSV loader `_load_housing_df` (housingpropertys.py, lines 33-48)

Only the derived fields cited by the claims are modelled: the loader's
`price_per_person` (lines 43-48) and `is_studio` (line 41), as functions of
the already-coerced numeric cells. -/

/-- `_load_housing_df` price per person (lines 43-48):
`price / max_residents if pd.notnull(price) and pd.notnull(max_residents) and
max_residents > 0 else None`. -/
def load_pricePerPerson (price maxRes : Option ℚ) : Option ℚ :=
  match price, maxRes with
  | some p, some m => if 0 < m then some (ratDiv p m) else none
  | _, _ => none

/-- `_load_housing_df` studio flag (line 41):
`bedrooms.fillna(0).astype(float).eq(0)` (no unit-text test here). -/
def load_isStudio (bedrooms : Option ℚ) : Bool :=
  decide (bedrooms.getD 0 = 0)

/-! ## Database manager (`db_manager.py`)

The embedded database state is the list of rows of each table.  SQLite
auto-increment identities are modelled by a `nextId` counter. -/

/-- A row of the `courses` table (schema lines 67-79); the table carries
`UNIQUE(major, course_code)`. -/
structure CourseRow where
  id : Nat
  major : String
  course_code : String
  title : String
  units : Option String
  level : Option String
  description : Option String
deriving DecidableEq

/-- The `courses` table with its auto-increment counter. -/
structure CoursesDB where
  rows : List CourseRow
  nextId : Nat
deriving DecidableEq

/-- The payload of `DatabaseManager.insert_course`. -/
structure CourseData where
  major : String
  course_code : String
  title : String
  units : Option String
  level : Option String
  description : Option String
deriving DecidableEq

/-- Does a stored row conflict with the payload on `(major, course_code)`? -/
def matchesKey (d : CourseData) (r : CourseRow) : Bool :=
  decide (r.major = d.major ∧ r.course_code = d.course_code)

/-- The `DO UPDATE SET` clause of `insert_course` (lines 200-207): overwrite
`title`, `units`, `level`, `description`; identity and key are unchanged. -/
def applyUpd (d : CourseData) (r : CourseRow) : CourseRow :=
  { r with title := d.title, units := d.units, level := d.level,
           description := d.description }

/-- `DatabaseManager.insert_course` (lines 196-212): an SQLite upsert on the
`UNIQUE(major, course_code)` constraint — on conflict the existing row is
updated in place, otherwise a fresh row is appended. -/
def insert_course (db : CoursesDB) (d : CourseData) : CoursesDB :=
  if db.rows.any (matchesKey d) then
    { db with rows := db.rows.map (fun r => if matchesKey d r then applyUpd d r else r) }
  else
    { rows := db.rows ++ [{ id := db.nextId, major := d.major,
                            course_code := d.course_code, title := d.title,
                            units := d.units, level := d.level,
                            description := d.description }],
      nextId := db.nextId + 1 }

/-- The uniqueness invariant SQLite maintains for `courses`:
no two rows share `(major, course_code)`. -/
def uniqueKeys (db : CoursesDB) : Prop :=
  db.rows.Pairwise (fun a b => ¬ (a.major = b.major ∧ a.course_code = b.course_code))

instance (db : CoursesDB) : Decidable (uniqueKeys db) := by
  unfold uniqueKeys
  exact List.instDecidablePairwise db.rows

/-- A row of the `offerings` table (schema lines 82-95), as inserted by
`ETLPipeline.load_course_offering`. -/
structure OfferingData where
  course_id : Nat
  quarter : String
  year : Option String
  status : Option String
  instructor : Option String
  seats_available : Option Int
  notes : Option String
deriving DecidableEq

/-- `ETLPipeline.load_course_offering` (etl_pipeline.py, lines 235-248): a
plain `INSERT INTO offerings` — the table has no uniqueness constraint, so the
row is always appended. -/
def load_course_offering (tbl : List OfferingData) (d : OfferingData) : List OfferingData :=
  tbl ++ [d]

/-- Loading a batch of offering records one by one, as the loop of
`load_course_data` does. -/
def loadOfferingBatch (tbl : List OfferingData) (batch : List OfferingData) :
    List OfferingData :=
  batch.foldl load_course_offering tbl

/-- `DatabaseManager.bulk_insert_housing` (lines 188-192):
`df.to_sql("housing", conn, if_exists="append")` — the batch is appended to
whatever rows are already persisted; no key is consulted. -/
def bulk_insert_housing (table : List TransformedRow) (df : List TransformedRow) :
    List TransformedRow :=
  table ++ df

/-! ## The connection scope (`DatabaseManager.get_connection`, lines 22-35)

The scope runs a body against the persisted state.  The body is a state
transformer that either returns a value and the updated state (`yield`
returned normally, then `conn.commit()`) or raises (`conn.rollback()` runs,
the exception is re-raised).  `conn.close()` runs in the `finally` block on
both paths. -/

/-- Observable outcome of one `with get_connection()` call. -/
structure ConnResult (σ ε α : Type _) where
  persisted : σ
  result : Except ε α
  closed : Bool

/-- `DatabaseManager.get_connection` as a state transformer: commit on normal
return, rollback-and-reraise on an exception, close on every exit path. -/
def get_connection {σ ε α : Type _} (persisted : σ) (body : σ → Except ε (α × σ)) :
    ConnResult σ ε α :=
  match body persisted with
  | .ok (a, s) => { persisted := s, result := .ok a, closed := true }
  | .error e => { persisted := persisted, result := .error e, closed := true }

/-! ## CSV extraction (`extract_housing_csv` / `extract_courses_csv`)

`pd.read_csv` either produces a frame or raises; the surrounding
`try/except` turns every exception into an empty frame.  The read outcome is
the input of the extraction function, which is total. -/

/-- Outcome of the underlying `pd.read_csv` call. -/
inductive ReadCsvResult (α : Type _) where
  | ok (df : α)
  | err (msg : String)
deriving DecidableEq

/-- A raw course CSV row (the columns `load_course_data` consumes). -/
structure RawCourseRow where
  major : Option String
  course_code : Option String
  title : Option String
  quarter : Option String
deriving DecidableEq

/-- `ETLPipeline.extract_housing_csv` (lines 28-37): return the frame read, or
an empty frame when the read raised (file absent or malformed). -/
def extract_housing_csv (res : ReadCsvResult (List RawRow)) : List RawRow :=
  match res with
  | .ok df => df
  | .err _ => []

/-- `ETLPipeline.extract_courses_csv` (lines 46-55): same contract for the
course CSV. -/
def extract_courses_csv (res : ReadCsvResult (List RawCourseRow)) : List RawCourseRow :=
  match res with
  | .ok df => df
  | .err _ => []

/-! ## Call-by-reference frame model for the transform (C10)

The caller passes a reference to its DataFrame; references are indices into a
heap of raw frames.  `transform_housing_data` copies the referenced value
first (`df = df.copy()`, line 67), so every later column write targets the
copy and the heap is never written. -/

/-- A heap of raw housing frames, indexed by reference. -/
def HeapRaw : Type := Nat → List RawRow

/-- The call `transform_housing_data(df)` where `df` is the reference `arg`
into `heap`: the body reads the referenced frame, copies it (line 67), and
performs all its mutations on the copy, returning the transformed frame; the
heap cell of the argument is never assigned. -/
def transform_housing_data_call (heap : HeapRaw) (arg : Nat) :
    HeapRaw × List TransformedRow :=
  let df0 := heap arg
  if df0.isEmpty then (heap, [])
  else
    let c := df0
    (heap, dropDupLast housingKey (c.map transformRow))

/-! ## Concrete sample rows used as test inputs -/

/-- A listing whose `max_residents` parses to a negative number. -/
def negResRow : RawRow :=
  { street := some "Sueno Rd", unit := some "Unit A", price := some "100",
    bedrooms := some "2", bathrooms := some "1", max_residents := some "-2",
    status := some "available", pet_policy := none }

/-- A listing with a missing `bedrooms` cell and a non-studio unit text. -/
def nullBedRow : RawRow :=
  { street := some "Pasado Rd", unit := some "Unit B", price := none,
    bedrooms := none, bathrooms := none, max_residents := none,
    status := none, pet_policy := none }

/-- A listing whose status has surrounding whitespace. -/
def padStatusRow : RawRow :=
  { street := some "Abrego Rd", unit := some "Unit C", price := none,
    bedrooms := some "2", bathrooms := none, max_residents := none,
    status := some " Available ", pet_policy := none }

/-- A well-formed listing (the spec §8 scenario row). -/
def okRow : RawRow :=
  { street := some "Sueno Rd", unit := some "Unit A", price := some "$3,000",
    bedrooms := some "2", bathrooms := some "1", max_residents := some "4",
    status := some "Available", pet_policy := some "Pets allowed" }

/-- A two-bedroom listing whose unit text says studio. -/
def studioRow : RawRow :=
  { street := some "Trigo Rd", unit := some "Studio 5", price := some "1200",
    bedrooms := some "2", bathrooms := some "1", max_residents := some "1",
    status := some "leased", pet_policy := none }

/-- A course payload. -/
def c3d1 : CourseData :=
  { major := "PSTAT", course_code := "120A", title := "Probability and Statistics",
    units := some "4", level := some "upper", description := none }

/-- The same `(major, course_code)` with different descriptive fields. -/
def c3d2 : CourseData :=
  { major := "PSTAT", course_code := "120A", title := "Probability and Statistics I",
    units := some "4", level := some "upper", description := some "updated" }

/-- A sample offering record. -/
def offSample : OfferingData :=
  { course_id := 1, quarter := "Fall", year := some "2025", status := some "open",
    instructor := some "Smith", seats_available := some 30, notes := none }

/-! ## General lemmas -/

theorem ratDiv_eq_div (p m : ℚ) : ratDiv p m = p / m := by
  unfold ratDiv
  rcases eq_or_ne m 0 with hm | hm
  · subst hm
    simp
  · have hmn : m.num ≠ 0 := Rat.num_ne_zero.mpr hm
    have hpd : ((p.den : ℚ)) ≠ 0 := Nat.cast_ne_zero.mpr p.den_nz
    have hmd : ((m.den : ℚ)) ≠ 0 := Nat.cast_ne_zero.mpr m.den_nz
    have hmq : ((m.num : ℚ)) ≠ 0 := Int.cast_ne_zero.mpr hmn
    have hp : (p.num : ℚ) = p * p.den := (div_eq_iff hpd).mp (Rat.num_div_den p)
    have hm2 : (m.num : ℚ) = m * m.den := (div_eq_iff hmd).mp (Rat.num_div_den m)
    rw [Rat.divInt_eq_div]
    push_cast
    rw [div_eq_div_iff (mul_ne_zero hpd hmq) hm, hp, hm2]
    ring

/-! ## Properties of the last-occurrence deduplication -/

theorem dropDupLast_subset {α κ : Type _} [DecidableEq κ] (key : α → κ) (l : List α) (x : α)
    (h : x ∈ dropDupLast key l) : x ∈ l := by
  induction l with
  | nil => simp [dropDupLast] at h
  | cons a as ih =>
    cases hany : as.any (fun y => decide (key y = key a)) with
    | true =>
      simp only [dropDupLast, hany, if_true] at h
      exact List.mem_cons_of_mem a (ih h)
    | false =>
      simp only [dropDupLast, hany, Bool.false_eq_true, if_false] at h
      rcases List.mem_cons.mp h with rfl | hx
      · exact List.mem_cons_self _ _
      · exact List.mem_cons_of_mem a (ih hx)

theorem dropDupLast_pairwise {α κ : Type _} [DecidableEq κ] (key : α → κ) (l : List α) :
    (dropDupLast key l).Pairwise (fun a b => key a ≠ key b) := by
  induction l with
  | nil => simp [dropDupLast]
  | cons a as ih =>
    cases hany : as.any (fun y => decide (key y = key a)) with
    | true =>
      simpa only [dropDupLast, hany, if_true] using ih
    | false =>
      simp only [dropDupLast, hany, Bool.false_eq_true, if_false]
      refine List.pairwise_cons.mpr ⟨?_, ih⟩
      intro y hy
      have hyas : y ∈ as := dropDupLast_subset key as y hy
      intro hk
      have : as.any (fun z => decide (key z = key a)) = true :=
        List.any_eq_true.mpr ⟨y, hyas, by simp [hk.symm]⟩
      rw [hany] at this
      exact Bool.false_ne_true this

theorem getLast?_cons_of_ne_nil {α : Type _} (a : α) {t : List α} (h : t ≠ []) :
    (a :: t).getLast? = t.getLast? := by
  cases t with
  | nil => exact absurd rfl h
  | cons b bs => exact List.getLast?_cons_cons

theorem dropDupLast_getLast {α κ : Type _} [DecidableEq κ] (key : α → κ) (l : List α) (x : α)
    (h : x ∈ dropDupLast key l) :
    (l.filter (fun y => decide (key y = key x))).getLast? = some x := by
  induction l with
  | nil => simp [dropDupLast] at h
  | cons a as ih =>
    cases hany : as.any (fun y => decide (key y = key a)) with
    | true =>
      simp only [dropDupLast, hany, if_true] at h
      have hx_as : x ∈ as := dropDupLast_subset key as x h
      have hlast := ih h
      by_cases hk : key a = key x
      · have hxf : x ∈ as.filter (fun y => decide (key y = key x)) :=
          List.mem_filter.mpr ⟨hx_as, by simp⟩
        have hne : as.filter (fun y => decide (key y = key x)) ≠ [] :=
          List.ne_nil_of_mem hxf
        rw [List.filter_cons_of_pos (by simp [hk]), getLast?_cons_of_ne_nil _ hne]
        exact hlast
      · rw [List.filter_cons_of_neg (by simp [hk])]
        exact hlast
    | false =>
      have hall : ∀ y ∈ as, key y ≠ key a := by
        intro y hy hk
        have : as.any (fun z => decide (key z = key a)) = true :=
          List.any_eq_true.mpr ⟨y, hy, by simp [hk]⟩
        rw [hany] at this
        exact Bool.false_ne_true this
      simp only [dropDupLast, hany, Bool.false_eq_true, if_false] at h
      rcases List.mem_cons.mp h with rfl | hx
      · rw [List.filter_cons_of_pos (by simp)]
        have hnil : as.filter (fun y => decide (key y = key x)) = [] := by
          rw [List.filter_eq_nil_iff]
          intro b hb
          simp [hall b hb]
        rw [hnil]
        rfl
      · have hx_as : x ∈ as := dropDupLast_subset key as x hx
        rw [List.filter_cons_of_neg (by simp [(hall x hx_as).symm])]
        exact ih hx

theorem dropDupLast_keys {α κ : Type _} [DecidableEq κ] (key : α → κ) (l : List α) (k : κ)
    (h : ∃ x ∈ l, key x = k) : ∃ y ∈ dropDupLast key l, key y = k := by
  induction l with
  | nil => simp at h
  | cons a as ih =>
    cases hany : as.any (fun y => decide (key y = key a)) with
    | true =>
      simp only [dropDupLast, hany, if_true]
      rcases h with ⟨x, hx, hkx⟩
      rcases List.mem_cons.mp hx with rfl | hx_as
      · rcases List.any_eq_true.mp hany with ⟨b, hb, hkb⟩
        exact ih ⟨b, hb, (of_decide_eq_true hkb).trans hkx⟩
      · exact ih ⟨x, hx_as, hkx⟩
    | false =>
      simp only [dropDupLast, hany, Bool.false_eq_true, if_false]
      rcases h with ⟨x, hx, hkx⟩
      rcases List.mem_cons.mp hx with rfl | hx_as
      · exact ⟨x, List.mem_cons_self _ _, hkx⟩
      · rcases ih ⟨x, hx_as, hkx⟩ with ⟨y, hy, hky⟩
        exact ⟨y, List.mem_cons_of_mem a hy, hky⟩

/-- Every output row of the transform is the elementwise transform of some
input row. -/
theorem mem_transform_housing_data {df : List RawRow} {r : TransformedRow}
    (h : r ∈ transform_housing_data df) : ∃ raw ∈ df, r = transformRow raw := by
  unfold transform_housing_data at h
  cases hd : df.isEmpty with
  | true => simp [hd] at h
  | false =>
    rw [hd] at h
    simp only [Bool.false_eq_true, if_false] at h
    have hmem := dropDupLast_subset housingKey (df.map transformRow) r h
    rcases List.mem_map.mp hmem with ⟨raw, hraw, hr⟩
    exact ⟨raw, hraw, hr.symm⟩

/-! ## Field-level specification lemmas -/

theorem pricePerPersonOf_spec (P M : Option ℚ) :
    ((M = none ∨ M = some 0) → pricePerPersonOf P M = none) ∧
    (∀ p m : ℚ, P = some p → M = some m → 0 < m →
      pricePerPersonOf P M = some (p / m)) := by
  constructor
  · rintro (rfl | rfl) <;> simp [pricePerPersonOf]
  · rintro p m rfl rfl hm
    simp [pricePerPersonOf, hm.ne', ratDiv_eq_div]

theorem isStudioOf_spec (B : Option ℚ) (u : Option String) :
    isStudioOf B u = true ↔ (B = none ∨ B = some 0 ∨ unitStudio u = true) := by
  cases B with
  | none => simp [isStudioOf]
  | some b =>
    by_cases hb : b = 0 <;> simp [isStudioOf, hb]

theorem loadOfferingBatch_eq_append (tbl batch : List OfferingData) :
    loadOfferingBatch tbl batch = tbl ++ batch := by
  induction batch generalizing tbl with
  | nil => simp [loadOfferingBatch]
  | cons b bs ih =>
    have hstep : loadOfferingBatch tbl (b :: bs) = loadOfferingBatch (tbl ++ [b]) bs := rfl
    rw [hstep, ih]
    simp

/-! ## Lemmas about the course upsert -/

theorem matchesKey_applyUpd (d e : CourseData) (r : CourseRow) :
    matchesKey e (applyUpd d r) = matchesKey e r := by
  simp [matchesKey, applyUpd]

theorem filter_key_len_le_one (l : List CourseRow)
    (h : l.Pairwise (fun a b => ¬ (a.major = b.major ∧ a.course_code = b.course_code)))
    (d : CourseData) :
    (l.filter (matchesKey d)).length ≤ 1 := by
  induction l with
  | nil => simp
  | cons a as ih =>
    rcases List.pairwise_cons.mp h with ⟨ha, has⟩
    by_cases hm : matchesKey d a = true
    · have hnil : as.filter (matchesKey d) = [] := by
        rw [List.filter_eq_nil_iff]
        intro b hb hmb
        rcases of_decide_eq_true hm with ⟨h1, h2⟩
        rcases of_decide_eq_true hmb with ⟨h3, h4⟩
        exact ha b hb ⟨h1.trans h3.symm, h2.trans h4.symm⟩
      rw [List.filter_cons_of_pos hm, hnil]
      simp
    · rw [List.filter_cons_of_neg hm]
      exact ih has

theorem insert_course_any (db : CoursesDB) (d : CourseData) :
    (insert_course db d).rows.any (matchesKey d) = true := by
  unfold insert_course
  by_cases hany : db.rows.any (matchesKey d) = true
  · rw [if_pos hany]
    rcases List.any_eq_true.mp hany with ⟨r, hr, hmr⟩
    refine List.any_eq_true.mpr ⟨applyUpd d r, ?_, ?_⟩
    · refine List.mem_map.mpr ⟨r, hr, ?_⟩
      rw [if_pos hmr]
    · rw [matchesKey_applyUpd]
      exact hmr
  · rw [if_neg hany]
    refine List.any_eq_true.mpr ⟨_, List.mem_append_right _ (List.mem_singleton_self _), ?_⟩
    simp [matchesKey]

theorem filter_map_update (d : CourseData) (l : List CourseRow) :
    (l.map (fun r => if matchesKey d r then applyUpd d r else r)).filter (matchesKey d)
      = (l.filter (matchesKey d)).map (applyUpd d) := by
  induction l with
  | nil => rfl
  | cons a as ih =>
    by_cases hm : matchesKey d a = true
    · simp only [List.map_cons, if_pos hm]
      rw [List.filter_cons_of_pos (by rw [matchesKey_applyUpd]; exact hm),
          List.filter_cons_of_pos hm, List.map_cons, ih]
    · simp only [List.map_cons, if_neg hm]
      rw [List.filter_cons_of_neg hm, List.filter_cons_of_neg hm, ih]

theorem insert_course_rows_of_any (db : CoursesDB) (d : CourseData)
    (hany : db.rows.any (matchesKey d) = true) :
    (insert_course db d).rows
      = db.rows.map (fun r => if matchesKey d r then applyUpd d r else r) := by
  unfold insert_course
  rw [if_pos hany]

theorem insert_course_filter_len (db : CoursesDB) (d : CourseData) (hu : uniqueKeys db) :
    ((insert_course db d).rows.filter (matchesKey d)).length = 1 := by
  by_cases hany : db.rows.any (matchesKey d) = true
  · rw [insert_course_rows_of_any db d hany, filter_map_update, List.length_map]
    have hle := filter_key_len_le_one db.rows hu d
    rcases List.any_eq_true.mp hany with ⟨r, hr, hmr⟩
    have hmem : r ∈ db.rows.filter (matchesKey d) := List.mem_filter.mpr ⟨hr, hmr⟩
    have hge : 0 < (db.rows.filter (matchesKey d)).length :=
      List.length_pos.mpr (List.ne_nil_of_mem hmem)
    omega
  · unfold insert_course
    rw [if_neg hany]
    have h1 : db.rows.filter (matchesKey d) = [] := by
      rw [List.filter_eq_nil_iff]
      intro b hb hmb
      exact hany (List.any_eq_true.mpr ⟨b, hb, hmb⟩)
    rw [List.filter_append, h1]
    simp [matchesKey]

/-! ## Claims -/

/-- C1 counterexample: in `transform_housing_data` a row whose
`max_residents` parses to -2 (negative, hence ≤ 0) with price 100 gets
`price_per_person = -50`, not null — refuting the claim that a null or
non-positive `max_residents` always yields a null `price_per_person`. -/
theorem C1_counterexample :
    transform_housing_data [negResRow] = [transformRow negResRow] ∧
    (transformRow negResRow).price = some 100 ∧
    (transformRow negResRow).max_residents = some (-2) ∧
    (transformRow negResRow).price_per_person = some (-50) := by
  decide

/-- C1 (amended): in `transform_housing_data`, `price_per_person` is null
when `max_residents` is null or equal to 0 (a negative value instead passes
through to the division), and equals `price / max_residents` whenever both
are present with `max_residents > 0`; the CSV loader `_load_housing_df` does
satisfy the original bound: its `price_per_person` is null whenever
`max_residents` is null or ≤ 0, and is the division when both are present
with `max_residents > 0`. -/
theorem C1_price_per_person (df : List RawRow) (r : TransformedRow)
    (h : r ∈ transform_housing_data df) :
    (((r.max_residents = none ∨ r.max_residents = some 0) →
        r.price_per_person = none) ∧
      (∀ p m : ℚ, r.price = some p → r.max_residents = some m → 0 < m →
        r.price_per_person = some (p / m))) ∧
    ((∀ (P : Option ℚ) (m : ℚ), m ≤ 0 → load_pricePerPerson P (some m) = none) ∧
      (∀ P : Option ℚ, load_pricePerPerson P none = none) ∧
      (∀ p m : ℚ, 0 < m → load_pricePerPerson (some p) (some m) = some (p / m))) := by
  constructor
  · rcases mem_transform_housing_data h with ⟨raw, -, rfl⟩
    simpa only [transformRow] using
      pricePerPersonOf_spec (cleanPrice raw.price) (toNumericCell raw.max_residents)
  · refine ⟨?_, ?_, ?_⟩
    · intro P m hm
      cases P <;> simp [load_pricePerPerson, not_lt.mpr hm]
    · intro P
      cases P <;> simp [load_pricePerPerson]
    · intro p m hm
      simp [load_pricePerPerson, hm, ratDiv_eq_div]

/-- Witness for C1 at the spec §8 row: price $3,000 over 4 residents gives
3000/4 per person. -/
theorem C1_price_per_person_witness :
    (transformRow okRow).price_per_person = some ((3000 : ℚ) / 4) :=
  (C1_price_per_person [okRow] (transformRow okRow) (by decide)).1.2 3000 4
    (by decide) (by decide) (by decide)

/-- C2 counterexample: a row with a null `bedrooms` cell and unit text
"Unit B" (which does not contain "studio") still gets `is_studio = true`,
because the transform fills null bedrooms with 0 before comparing — refuting
the claimed iff. -/
theorem C2_counterexample :
    transform_housing_data [nullBedRow] = [transformRow nullBedRow] ∧
    (transformRow nullBedRow).bedrooms = none ∧
    unitStudio (transformRow nullBedRow).unit = false ∧
    (transformRow nullBedRow).is_studio = true := by
  decide

/-- C2 (amended): in `transform_housing_data`, `is_studio` is true iff the
bedrooms value is null, or equals 0, or the unit text contains "studio"
(case-insensitively); in particular a null-bedrooms row is flagged as a
studio regardless of its unit text. -/
theorem C2_is_studio (df : List RawRow) (r : TransformedRow)
    (h : r ∈ transform_housing_data df) :
    r.is_studio = true ↔
      (r.bedrooms = none ∨ r.bedrooms = some 0 ∨ unitStudio r.unit = true) := by
  rcases mem_transform_housing_data h with ⟨raw, -, rfl⟩
  simpa only [transformRow] using
    isStudioOf_spec (toNumericCell raw.bedrooms) raw.unit

/-- Witness for C2: a two-bedroom row whose unit text contains "Studio" is
flagged as a studio. -/
theorem C2_is_studio_witness :
    (transformRow studioRow).is_studio = true :=
  (C2_is_studio [studioRow] (transformRow studioRow) (by decide)).mpr
    (Or.inr (Or.inr (by decide)))

/-- C5: currency normalization strips the dollar sign and commas and parses
the rest as a number; "$2,450" gives 2450, while values that do not parse
("n/a", the empty string) give null.  The function is total, so no input
raises. -/
theorem C5_currency_parsing :
    stripCurrency "$2,450" = "2450" ∧
    cleanPrice (some "$2,450") = some 2450 ∧
    cleanPrice (some "n/a") = none ∧
    cleanPrice (some "") = none := by
  decide

/-- C6: loading the same batch of offering records twice appends the batch
twice — the offerings table ends with `2 * N` new rows on top of the prior
contents, and each batch row is present at least twice (duplicates). -/
theorem C6_offerings_duplicate (tbl batch : List OfferingData) :
    loadOfferingBatch (loadOfferingBatch tbl batch) batch = tbl ++ batch ++ batch ∧
    (loadOfferingBatch (loadOfferingBatch tbl batch) batch).length
      = tbl.length + 2 * batch.length ∧
    (∀ d ∈ batch, 2 * batch.count d ≤
      (loadOfferingBatch (loadOfferingBatch tbl batch) batch).count d) := by
  have he : loadOfferingBatch (loadOfferingBatch tbl batch) batch
      = tbl ++ batch ++ batch := by
    rw [loadOfferingBatch_eq_append, loadOfferingBatch_eq_append]
  refine ⟨he, ?_, ?_⟩
  · rw [he]
    simp only [List.length_append]
    omega
  · intro d hd
    rw [he]
    simp only [List.count_append]
    omega

/-- Witness for C6: one offering loaded twice is counted twice. -/
theorem C6_offerings_duplicate_witness :
    2 * ([offSample].count offSample) ≤
      (loadOfferingBatch (loadOfferingBatch [] [offSample]) [offSample]).count offSample :=
  (C6_offerings_duplicate [] [offSample]).2.2 offSample (by decide)

/-- C7: the CSV extraction operations are total over every read outcome — a
raised read error yields the empty frame, a successful read passes the frame
through — so a missing or malformed file is indistinguishable from an empty
file. -/
theorem C7_extract_never_raises (msg : String) (hdf : List RawRow)
    (cdf : List RawCourseRow) :
    extract_housing_csv (ReadCsvResult.err msg) = [] ∧
    extract_courses_csv (ReadCsvResult.err msg) = [] ∧
    extract_housing_csv (ReadCsvResult.ok hdf) = hdf ∧
    extract_courses_csv (ReadCsvResult.ok cdf) = cdf ∧
    extract_housing_csv (ReadCsvResult.err msg) = extract_housing_csv (ReadCsvResult.ok []) ∧
    extract_courses_csv (ReadCsvResult.err msg) = extract_courses_csv (ReadCsvResult.ok []) :=
  ⟨rfl, rfl, rfl, rfl, rfl, rfl⟩

/-- Witness for C7 at a concrete read error. -/
theorem C7_extract_never_raises_witness :
    extract_housing_csv (ReadCsvResult.err "file not found")
      = extract_housing_csv (ReadCsvResult.ok []) :=
  (C7_extract_never_raises "file not found" [] []).2.2.2.2.1

/-- C3: the course insert is an upsert keyed on `(major, course_code)`:
starting from any table satisfying the uniqueness constraint, inserting two
payloads with the same key leaves exactly one row for that key, that row
carries the second payload's `title`, `units`, `level` and `description`, and
the second insert adds no row. -/
theorem C3_course_upsert (db : CoursesDB) (d1 d2 : CourseData) (hu : uniqueKeys db)
    (hk : d1.major = d2.major ∧ d1.course_code = d2.course_code) :
    ((insert_course (insert_course db d1) d2).rows.filter (matchesKey d2)).length = 1 ∧
    (∀ r ∈ (insert_course (insert_course db d1) d2).rows.filter (matchesKey d2),
      r.title = d2.title ∧ r.units = d2.units ∧ r.level = d2.level ∧
        r.description = d2.description) ∧
    (insert_course (insert_course db d1) d2).rows.length
      = (insert_course db d1).rows.length := by
  have hkeq : matchesKey d2 = matchesKey d1 := by
    funext r
    simp [matchesKey, hk.1, hk.2]
  have hany : (insert_course db d1).rows.any (matchesKey d2) = true := by
    rw [hkeq]
    exact insert_course_any db d1
  have hrows := insert_course_rows_of_any (insert_course db d1) d2 hany
  refine ⟨?_, ?_, ?_⟩
  · rw [hrows, filter_map_update, List.length_map, hkeq]
    exact insert_course_filter_len db d1 hu
  · intro r hr
    rw [hrows, filter_map_update] at hr
    rcases List.mem_map.mp hr with ⟨q, -, rfl⟩
    simp [applyUpd]
  · rw [hrows, List.length_map]

/-- Witness for C3: importing the same PSTAT 120A record twice with different
titles into an empty table leaves exactly one row for the key. -/
theorem C3_course_upsert_witness :
    ((insert_course (insert_course { rows := [], nextId := 1 } c3d1) c3d2).rows.filter
        (matchesKey c3d2)).length = 1 :=
  (C3_course_upsert { rows := [], nextId := 1 } c3d1 c3d2 (by decide) (by decide)).1

/-- C4: one `get_connection` scope is atomic: the connection is closed on
every exit path; if the body raises, the persisted state is unchanged
(rollback) and the same exception is re-raised; if the body returns, its
state is committed and its value returned. -/
theorem C4_connection_atomic {σ ε α : Type} (persisted : σ)
    (body : σ → Except ε (α × σ)) :
    (get_connection persisted body).closed = true ∧
    (∀ e : ε, body persisted = Except.error e →
      (get_connection persisted body).persisted = persisted ∧
      (get_connection persisted body).result = Except.error e) ∧
    (∀ (a : α) (s : σ), body persisted = Except.ok (a, s) →
      (get_connection persisted body).persisted = s ∧
      (get_connection persisted body).result = Except.ok a) := by
  unfold get_connection
  cases hb : body persisted with
  | ok p =>
    rcases p with ⟨pa, ps⟩
    refine ⟨rfl, ?_, ?_⟩
    · intro e he
      exact Except.noConfusion he
    · intro a s has
      simp only [Except.ok.injEq, Prod.mk.injEq] at has
      obtain ⟨rfl, rfl⟩ := has
      exact ⟨rfl, rfl⟩
  | error e0 =>
    refine ⟨rfl, ?_, ?_⟩
    · intro e he
      simp only [Except.error.injEq] at he
      subst he
      exact ⟨rfl, rfl⟩
    · intro a s has
      exact Except.noConfusion has

/-- Witness for C4: a failing body leaves the state at 0; a successful body
commits the incremented state. -/
theorem C4_connection_atomic_witness :
    (get_connection (0 : Nat)
        (fun _ => (Except.error "db locked" : Except String (Unit × Nat)))).persisted = 0 ∧
    (get_connection (0 : Nat)
        (fun s => (Except.ok ((), s + 1) : Except String (Unit × Nat)))).persisted = 1 :=
  ⟨((C4_connection_atomic 0 _).2.1 "db locked" rfl).1,
   ((C4_connection_atomic 0 _).2.2 () 1 rfl).1⟩

/-- C8 counterexample: the status " Available " is lowercased but its
surrounding whitespace survives `transform_housing_data` — refuting the
claimed trimming. -/
theorem C8_counterexample :
    transform_housing_data [padStatusRow] = [transformRow padStatusRow] ∧
    (transformRow padStatusRow).status = " available " ∧
    trimStr (transformRow padStatusRow).status ≠ (transformRow padStatusRow).status := by
  decide

/-- C8 (amended): status normalization in `transform_housing_data` lowercases
every present status value without trimming it, and substitutes "available"
for a missing one; any string is accepted without canonicalization against a
fixed vocabulary (the lowercased input passes through unchanged). -/
theorem C8_status_lowercase_default (df : List RawRow) (r : TransformedRow)
    (h : r ∈ transform_housing_data df) :
    ∃ raw ∈ df, (raw.status = none → r.status = "available") ∧
      (∀ s : String, raw.status = some s → r.status = lowerStr s) := by
  rcases mem_transform_housing_data h with ⟨raw, hraw, rfl⟩
  refine ⟨raw, hraw, ?_, ?_⟩
  · intro hnone
    simp only [transformRow, cleanStatus, hnone, Option.getD_none]
    decide
  · intro s hs
    simp [transformRow, cleanStatus, hs]

/-- Witness for C8 at the padded row. -/
theorem C8_status_witness :
    (transformRow padStatusRow).status = lowerStr " Available " := by
  rcases C8_status_lowercase_default [padStatusRow] (transformRow padStatusRow)
      (by decide) with ⟨raw, hraw, -, hsome⟩
  have hr : raw = padStatusRow := List.mem_singleton.mp hraw
  subst hr
  exact hsome " Available " rfl

/-- C9: the transform deduplicates the in-memory batch by `(street, unit)`:
its output has pairwise distinct keys (at most one row per key), each output
row is the last occurrence of its key among the transformed input rows, every
input key survives, and the persistence step appends the batch to the
already-persisted rows without any deduplication against them. -/
theorem C9_dedup_in_memory (df : List RawRow) :
    (transform_housing_data df).Pairwise (fun a b => housingKey a ≠ housingKey b) ∧
    (∀ r ∈ transform_housing_data df,
      ((df.map transformRow).filter
          (fun y => decide (housingKey y = housingKey r))).getLast? = some r) ∧
    (∀ raw ∈ df, ∃ q ∈ transform_housing_data df,
      housingKey q = housingKey (transformRow raw)) ∧
    (∀ table : List TransformedRow,
      bulk_insert_housing table (transform_housing_data df)
          = table ++ transform_housing_data df ∧
      (bulk_insert_housing table (transform_housing_data df)).length
          = table.length + (transform_housing_data df).length) := by
  refine ⟨?_, ?_, ?_, ?_⟩
  · unfold transform_housing_data
    split
    · simp
    · exact dropDupLast_pairwise housingKey _
  · intro r hr
    unfold transform_housing_data at hr
    split at hr
    · simp at hr
    · exact dropDupLast_getLast housingKey _ r hr
  · intro raw hraw
    unfold transform_housing_data
    split
    · next hemp =>
      cases df with
      | nil => simp at hraw
      | cons a as => simp [List.isEmpty_cons] at hemp
    · exact dropDupLast_keys housingKey _ (housingKey (transformRow raw))
        ⟨transformRow raw, List.mem_map_of_mem _ hraw, rfl⟩
  · intro table
    exact ⟨rfl, by simp [bulk_insert_housing]⟩

/-- Witness for C9: with two rows sharing the key (Sueno Rd, Unit A), the
kept row is the last occurrence. -/
theorem C9_dedup_in_memory_witness :
    (([negResRow, okRow].map transformRow).filter
        (fun y => decide (housingKey y = housingKey (transformRow okRow)))).getLast?
      = some (transformRow okRow) :=
  (C9_dedup_in_memory [negResRow, okRow]).2.1 (transformRow okRow) (by decide)

/-- C10: calling the transform through a reference leaves the caller's frame
untouched — all mutations act on the copy taken at entry — and the returned
frame is exactly the pure transform of the referenced frame. -/
theorem C10_transform_no_mutation (heap : HeapRaw) (arg : Nat) :
    (transform_housing_data_call heap arg).1 = heap ∧
    (transform_housing_data_call heap arg).2 = transform_housing_data (heap arg) := by
  by_cases hd : (heap arg).isEmpty = true <;>
    simp [transform_housing_data_call, transform_housing_data, hd]

/-- Witness for C10 at a one-cell heap. -/
theorem C10_transform_no_mutation_witness :
    (transform_housing_data_call (fun _ => [okRow]) 0).1 = (fun _ => [okRow]) :=
  (C10_transform_no_mutation (fun _ => [okRow]) 0).1

end GauchoGPT
